import Mathlib

/-!
Verification of the weak-supervision label aggregation engine used by the
crowdsourcing tutorial (src/crowdsourcing/crowdsourcing_tutorial.ipynb).

The tutorial's own code (worker labeling functions, TextBlob polarity
labeling functions, the memoized preprocessor wiring) is embedded directly
from the notebook source.  The label-aggregation core it drives
(LabelModel, LFAnalysis, PandasLFApplier) lives in an external library that
is not part of this repository, so those components are modelled from the
specification, as marked on each definition.
-/

namespace CrowdTutorial

/-- The abstain sentinel: a source's explicit non-vote, distinct from any
class index.  From the notebook: ABSTAIN = -1. -/
def ABSTAIN : Int := -1

/-- A data point of the tutorial: a tweet with a stable integer key and its
text.  Fields mirror the columns the notebook's labeling functions read
(x.tweet_id, x.tweet_text). -/
structure Item where
  tweet_id : Nat
  tweet_text : String
deriving DecidableEq, Repr

/-- A vote matrix: one row per item, one integer vote per source,
with -1 denoting abstain. -/
abbrev VoteMatrix := List (List Int)

/-! ### Crowdworker labeling functions (notebook cell 15) -/

/-- First-match lookup in an association list, embedding the Python
dict access worker_dict.get(key, default) used by worker_lf. -/
def dictGet (d : List (Nat × Int)) (key : Nat) : Option Int :=
  match d with
  | [] => none
  | (k, v) :: rest => if k = key then some v else dictGet rest key

/-- From the notebook: def worker_lf(x, worker_dict): return
worker_dict.get(x.tweet_id, ABSTAIN). -/
def worker_lf (x : Item) (worker_dict : List (Nat × Int)) : Int :=
  (dictGet worker_dict x.tweet_id).getD ABSTAIN

/-- From the notebook: make_worker_lf(worker_id) builds a LabelingFunction
that closes over that worker's dictionary and applies worker_lf. -/
def make_worker_lf (worker_dict : List (Nat × Int)) : Item → Int :=
  fun x => worker_lf x worker_dict

/-! ### TextBlob polarity labeling functions (notebook cell 23) -/

/-- An item after the textblob_polarity preprocessor has run: the notebook
sets x.polarity = TextBlob(x.tweet_text).polarity before any polarity
labeling function reads it.  The TextBlob analyzer itself is an external
pretrained model, abstracted as a function from the tweet text to a score. -/
structure TBItem where
  tweet_id : Nat
  tweet_text : String
  polarity : ℚ
deriving DecidableEq, Repr

/-- From the notebook: the textblob_polarity preprocessor computes the
polarity score of x.tweet_text and attaches it to the item.  The score
function tb stands for the external TextBlob sentiment analyzer. -/
def textblob_polarity (tb : String → ℚ) (x : Item) : TBItem :=
  ⟨x.tweet_id, x.tweet_text, tb x.tweet_text⟩

/-- From the notebook: polarity_positive(x) = 1 if x.polarity > 0.3 else -1. -/
def polarity_positive (x : TBItem) : Int :=
  if 3 / 10 < x.polarity then 1 else ABSTAIN

/-- From the notebook: polarity_negative(x) = 0 if x.polarity < -0.25 else -1. -/
def polarity_negative (x : TBItem) : Int :=
  if x.polarity < -(1 / 4) then 0 else ABSTAIN

/-- From the notebook: polarity_negative_2(x) = 0 if x.polarity <= 0.3 else -1. -/
def polarity_negative_2 (x : TBItem) : Int :=
  if x.polarity ≤ 3 / 10 then 0 else ABSTAIN

/-! ### Memoized preprocessing (notebook cell 23: preprocessor with
memoize=True).  The cache maps an already-seen item to its preprocessed
form; a hit returns the cached result, a miss computes and stores it. -/

/-- First-match lookup of an item in the preprocessing cache. -/
def cacheFind (cache : List (Item × TBItem)) (x : Item) : Option TBItem :=
  match cache with
  | [] => none
  | (a, b) :: rest => if a = x then some b else cacheFind rest x

/-- One memoized preprocessor call: serve the cached preprocessed item when
present, otherwise run textblob_polarity and record the result. -/
def memoLookup (tb : String → ℚ) (cache : List (Item × TBItem)) (x : Item) :
    TBItem × List (Item × TBItem) :=
  match cacheFind cache x with
  | some y => (y, cache)
  | none =>
    let y := textblob_polarity tb x
    (y, (x, y) :: cache)

/-- Running a polarity labeling function over a stream of items with the
memoizing preprocessor threaded through. -/
def applyWithMemo (tb : String → ℚ) (lf : TBItem → Int) :
    List (Item × TBItem) → List Item → List Int
  | _, [] => []
  | cache, x :: xs =>
    let r := memoLookup tb cache x
    lf r.1 :: applyWithMemo tb lf r.2 xs

/-- Running a polarity labeling function with the preprocessor recomputed
from scratch on every item (no cache). -/
def applyNoMemo (tb : String → ℚ) (lf : TBItem → Int) (items : List Item) :
    List Int :=
  items.map (fun x => lf (textblob_polarity tb x))

/-- A preprocessing cache is well formed when every stored entry is the
preprocessor's own output for its key. -/
def CacheWF (tb : String → ℚ) (cache : List (Item × TBItem)) : Prop :=
  ∀ p ∈ cache, p.2 = textblob_polarity tb p.1

/-! ### Helper lemmas for memoization -/

theorem cacheFind_wf {tb : String → ℚ} {cache : List (Item × TBItem)}
    (hwf : CacheWF tb cache) {x : Item} {y : TBItem}
    (h : cacheFind cache x = some y) : y = textblob_polarity tb x := by
  induction cache with
  | nil => simp [cacheFind] at h
  | cons p rest ih =>
    obtain ⟨a, b⟩ := p
    by_cases hax : a = x
    · simp [cacheFind, hax] at h
      subst hax
      subst h
      simpa using hwf (a, b) (by simp)
    · simp [cacheFind, hax] at h
      exact ih (fun q hq => hwf q (by simp [hq])) h

theorem memoLookup_result {tb : String → ℚ} {cache : List (Item × TBItem)}
    (hwf : CacheWF tb cache) (x : Item) :
    (memoLookup tb cache x).1 = textblob_polarity tb x ∧
      CacheWF tb (memoLookup tb cache x).2 := by
  unfold memoLookup
  cases h : cacheFind cache x with
  | none =>
    refine ⟨rfl, ?_⟩
    intro p hp
    rcases List.mem_cons.mp hp with hp | hp
    · subst hp; rfl
    · exact hwf p hp
  | some y => exact ⟨cacheFind_wf hwf h, hwf⟩

theorem applyWithMemo_eq {tb : String → ℚ} (lf : TBItem → Int)
    (items : List Item) (cache : List (Item × TBItem))
    (hwf : CacheWF tb cache) :
    applyWithMemo tb lf cache items = applyNoMemo tb lf items := by
  induction items generalizing cache with
  | nil => rfl
  | cons x xs ih =>
    obtain ⟨h1, h2⟩ := memoLookup_result hwf x
    simp only [applyWithMemo, applyNoMemo, List.map_cons, h1]
    exact congrArg _ (ih _ h2)

/-! ### Claim theorems for notebook-level code -/

/-- Claim C8: memoizing the shared textblob_polarity preprocessing is a pure
optimization — for every polarity score function and every item stream, each
of the three polarity labeling functions produces exactly the same votes
through the memoized pipeline as through the unmemoized one. -/
theorem memoization_is_pure (tb : String → ℚ) (items : List Item) :
    applyWithMemo tb polarity_positive [] items =
        applyNoMemo tb polarity_positive items ∧
      applyWithMemo tb polarity_negative [] items =
        applyNoMemo tb polarity_negative items ∧
      applyWithMemo tb polarity_negative_2 [] items =
        applyNoMemo tb polarity_negative_2 items :=
  ⟨applyWithMemo_eq _ _ _ (by intro p hp; simp at hp),
   applyWithMemo_eq _ _ _ (by intro p hp; simp at hp),
   applyWithMemo_eq _ _ _ (by intro p hp; simp at hp)⟩

/-- Claim C9: polarity_positive votes 1 exactly when the polarity score
exceeds 3/10, polarity_negative_2 votes 0 exactly when the score is at most
3/10, the two sources never both vote on the same item, and every item gets
a non-abstain vote from exactly one of the two. -/
theorem polarity_positive_negative_2_exclusive (x : TBItem) :
    (polarity_positive x = 1 ↔ 3 / 10 < x.polarity) ∧
      (polarity_negative_2 x = 0 ↔ x.polarity ≤ 3 / 10) ∧
      ¬(polarity_positive x ≠ ABSTAIN ∧ polarity_negative_2 x ≠ ABSTAIN) ∧
      (polarity_positive x ≠ ABSTAIN ↔ polarity_negative_2 x = ABSTAIN) := by
  by_cases h : x.polarity ≤ 3 / 10
  · simp [polarity_positive, polarity_negative_2, ABSTAIN, h, not_lt.mpr h]
  · simp [polarity_positive, polarity_negative_2, ABSTAIN, h, lt_of_not_le h]

/-- Every value dictGet returns is stored in the dictionary. -/
theorem dictGet_mem {d : List (Nat × Int)} {key : Nat} {v : Int}
    (h : dictGet d key = some v) : v ∈ d.map Prod.snd := by
  induction d with
  | nil => simp [dictGet] at h
  | cons p rest ih =>
    obtain ⟨k, w⟩ := p
    by_cases hk : k = key
    · simp [dictGet, hk] at h
      simp [h]
    · simp [dictGet, hk] at h
      simp [ih h]

/-- Claim C10: worker_lf is total — it returns the worker's recorded label
when the tweet id is a key of the dictionary, ABSTAIN otherwise, and every
vote it produces is ABSTAIN or one of the labels stored in the dictionary. -/
theorem worker_lf_total (x : Item) (worker_dict : List (Nat × Int)) :
    (∀ v, dictGet worker_dict x.tweet_id = some v → worker_lf x worker_dict = v) ∧
      (dictGet worker_dict x.tweet_id = none → worker_lf x worker_dict = ABSTAIN) ∧
      (worker_lf x worker_dict = ABSTAIN ∨
        worker_lf x worker_dict ∈ worker_dict.map Prod.snd) := by
  refine ⟨fun v hv => by simp [worker_lf, hv], fun hn => by simp [worker_lf, hn], ?_⟩
  cases h : dictGet worker_dict x.tweet_id with
  | none => exact Or.inl (by simp [worker_lf, h])
  | some v =>
    refine Or.inr ?_
    have : worker_lf x worker_dict = v := by simp [worker_lf, h]
    rw [this]
    exact dictGet_mem h

/-- Witness for claim C10 at a concrete item and dictionary: tweet id 5 is
recorded with label 1, tweet id 7 is absent. -/
theorem worker_lf_total_witness :
    worker_lf ⟨5, "sunny"⟩ [(5, 1), (6, 0)] = 1 ∧
      worker_lf ⟨7, "rain"⟩ [(5, 1), (6, 0)] = ABSTAIN :=
  ⟨(worker_lf_total ⟨5, "sunny"⟩ [(5, 1), (6, 0)]).1 1 (by decide),
   (worker_lf_total ⟨7, "rain"⟩ [(5, 1), (6, 0)]).2.1 (by decide)⟩

/-! ### Label model core.

The LabelModel, LFAnalysis and PandasLFApplier classes are supplied by the
external snorkel library and are not part of this repository; the notebook
only calls them.  The definitions below are therefore modelled from the
specification (SPEC sections 3, 4.2, 4.3, 7). -/

/-- Modelled from the spec: the errors of the label model core (SPEC
section 7); the library code raising them is not in this repository. -/
inductive LMError where
  | notFittedError
  | invalidConfigurationError
  | noSignalError
deriving DecidableEq, Repr

/-- Modelled from the spec: the learned per-source accuracy parameters,
owned by the label model and re-estimated on every fit call; the library
code holding them is not in this repository. -/
structure FitParams where
  accs : List ℚ
deriving DecidableEq, Repr

/-- Modelled from the spec: the label model's lifecycle state — it starts
uninitialized and becomes fitted after a successful fit; the library code
is not in this repository. -/
inductive ModelState where
  | uninitialized
  | fitted (ps : FitParams)
deriving DecidableEq, Repr

/-- Modelled from the spec: a LabelModel instance with its fixed class
cardinality and its lifecycle state; the library class is not in this
repository. -/
structure LabelModel where
  cardinality : Nat
  state : ModelState
deriving DecidableEq, Repr

/-- True when the matrix holds at least one non-abstaining vote anywhere. -/
def hasSignal (L : VoteMatrix) : Bool :=
  L.any (fun row => row.any (fun v => decide (0 ≤ v)))

/-- Number of sources, read off the matrix width. -/
def numSources (L : VoteMatrix) : Nat := (L.headD []).length

/-- Clamp a probability into the interval prescribed by the spec's numeric
semantics so parameters stay valid probabilities during optimization. -/
def clampProb (a : ℚ) : ℚ := max (1 / 1000) (min (999 / 1000) a)

/-- Deterministic seed-derived initial accuracy for source j. -/
def initAcc (seed j : Nat) : ℚ := ((5 + (seed + j) % 5 : Nat) : ℚ) / 10

/-- Pairwise agreement statistics for source j: over all items where j
votes, count the co-voting cells of other sources that agree with j and
the co-voting cells in total. -/
def agreeStats (L : VoteMatrix) (j : Nat) : Nat × Nat :=
  L.foldl
    (fun acc row =>
      let v := row.getD j (-1)
      if v = -1 then acc
      else
        (List.range row.length).foldl
          (fun acc2 j2 =>
            let w := row.getD j2 (-1)
            if j2 = j ∨ w = -1 then acc2
            else (acc2.1 + (if w = v then 1 else 0), acc2.2 + 1))
          acc)
    (0, 0)

/-- Empirical agreement rate of source j with its co-voting peers, the
target the iterative estimator moves the accuracy parameter toward; 1/2
(chance) when the source never co-votes. -/
def targetAcc (L : VoteMatrix) (j : Nat) : ℚ :=
  let s := agreeStats L j
  if s.2 = 0 then 1 / 2 else (s.1 : ℚ) / (s.2 : ℚ)

/-- One gradient step on the squared-error-plus-l2 objective for one
accuracy parameter, clamped to remain a valid probability. -/
def stepAcc (lr l2 target a : ℚ) : ℚ :=
  clampProb (a + lr * (target - a) - lr * l2 * a)

/-- Fixed-iteration-count gradient descent on one accuracy parameter. -/
def iterAcc : Nat → ℚ → ℚ → ℚ → ℚ → ℚ
  | 0, _, _, _, a => a
  | n + 1, lr, l2, t, a => iterAcc n lr l2 t (stepAcc lr l2 t a)

/-- Modelled from the spec: the parameter estimation of LabelModel.fit —
deterministic seed-based initialization followed by n_epochs gradient steps
toward the pairwise agreement statistics, with l2 regularization.  The
exact objective of the library's solver is not in this repository and is
left open by the spec (section 9); this is one deterministic instance of
the prescribed scheme. -/
def fitAccs (L : VoteMatrix) (nEpochs seed : Nat) (l2 lr : ℚ) : List ℚ :=
  (List.range (numSources L)).map
    (fun j => iterAcc nEpochs lr l2 (targetAcc L j) (clampProb (initAcc seed j)))

/-- Modelled from the spec: LabelModel.fit — validate the configuration
(cardinality at least 2, positive n_epochs and lr, nonnegative l2), refuse
an all-abstain matrix, then estimate the per-source accuracies; log_freq
only controls progress reporting and has no effect on the result.  The
library implementation is not in this repository. -/
def fit (m : LabelModel) (L : VoteMatrix) (nEpochs seed : Nat) (l2 lr : ℚ)
    (logFreq : Nat) : Except LMError LabelModel :=
  if m.cardinality < 2 then .error .invalidConfigurationError
  else if nEpochs = 0 then .error .invalidConfigurationError
  else if lr ≤ 0 then .error .invalidConfigurationError
  else if l2 < 0 then .error .invalidConfigurationError
  else if hasSignal L then
    .ok { m with state := .fitted ⟨fitAccs L nEpochs seed l2 lr⟩ }
  else .error .noSignalError

/-- Likelihood contribution of one source's vote to class c under the
fitted accuracy: abstain contributes no evidence, an agreeing vote
contributes the source's accuracy, a disagreeing vote spreads the
complement over the other classes. -/
def cellLikelihood (k : Nat) (acc : ℚ) (vote : Int) (c : Nat) : ℚ :=
  if vote = -1 then 1
  else if vote = (c : Int) then acc
  else (1 - acc) / ((k : ℚ) - 1)

/-- Unnormalized posterior weights of one item: uniform prior times the
product of the non-abstaining sources' likelihood contributions. -/
def rowWeights (k : Nat) (accs : List ℚ) (row : List Int) : List ℚ :=
  (List.range k).map
    (fun c => ((accs.zip row).map (fun p => cellLikelihood k p.1 p.2 c)).prod)

/-- Normalized posterior of one item. -/
def predict_proba_row (k : Nat) (accs : List ℚ) (row : List Int) : List ℚ :=
  (rowWeights k accs row).map (fun x => x / (rowWeights k accs row).sum)

/-- Modelled from the spec: LabelModel.predict_proba — valid only in the
fitted state, applying Bayes' rule per item from the observed non-abstain
votes; the library implementation is not in this repository. -/
def predict_proba (m : LabelModel) (L : VoteMatrix) :
    Except LMError (List (List ℚ)) :=
  match m.state with
  | .uninitialized => .error .notFittedError
  | .fitted ps => .ok (L.map (predict_proba_row m.cardinality ps.accs))

/-- Lowest index of a maximal element: the first position whose value is
greater than or equal to every element of the list. -/
def argmaxIdx (l : List ℚ) : Nat :=
  l.findIdx (fun x => l.all (fun y => decide (y ≤ x)))

/-- Modelled from the spec: LabelModel.predict — argmax over predict_proba
with ties broken deterministically by lowest class index; the library
implementation is not in this repository. -/
def predict (m : LabelModel) (L : VoteMatrix) : Except LMError (List Nat) :=
  match m.state with
  | .uninitialized => .error .notFittedError
  | .fitted ps =>
    .ok (L.map (fun row => argmaxIdx (predict_proba_row m.cardinality ps.accs row)))

/-- True when a row holds at least one non-abstaining vote. -/
def rowCovered (row : List Int) : Bool := row.any (fun v => decide (0 ≤ v))

/-- Modelled from the spec: LFAnalysis.label_coverage — the fraction of
items with at least one non-abstaining source; the library implementation
is not in this repository. -/
def label_coverage (L : VoteMatrix) : ℚ :=
  ((L.countP rowCovered : Nat) : ℚ) / ((L.length : Nat) : ℚ)

/-! ### Source applier.

PandasLFApplier is library code not in this repository; the applier below
is modelled from the spec (sections 4.1 and 7): per-cell evaluation, with a
source's error recorded as abstain plus a diagnostic fault entry, never
aborting the batch. -/

/-- Modelled from the spec: a labeling source evaluated by the applier —
a function of an item that either returns a vote or raises an error; the
library's LabelingFunction wrapper is not in this repository. -/
abbrev Source := Item → Except String Int

/-- Modelled from the spec: one diagnostic fault entry, recording which
(item, source) cell raised and its message; the library's error reporting
is not in this repository. -/
structure Fault where
  itemIdx : Nat
  srcIdx : Nat
  message : String
deriving DecidableEq, Repr

/-- One applier cell: the source's vote, with an error recovered locally
as abstain. -/
def evalCell (s : Source) (x : Item) : Int :=
  match s x with
  | .ok v => v
  | .error _ => ABSTAIN

/-- Modelled from the spec: the vote matrix built by PandasLFApplier.apply —
item order and source order are the input orders; the library
implementation is not in this repository. -/
def applyMatrix (sources : List Source) (items : List Item) : VoteMatrix :=
  items.map (fun x => sources.map (fun s => evalCell s x))

/-- Fault entries of one item row, with j the index of the first listed
source. -/
def rowFaultsFrom (i : Nat) (x : Item) : Nat → List Source → List Fault
  | _, [] => []
  | j, s :: rest =>
    match s x with
    | .ok _ => rowFaultsFrom i x (j + 1) rest
    | .error e => ⟨i, j, e⟩ :: rowFaultsFrom i x (j + 1) rest

/-- Fault entries of all rows, with i the index of the first listed item. -/
def faultsFrom (sources : List Source) : Nat → List Item → List Fault
  | _, [] => []
  | i, x :: xs => rowFaultsFrom i x 0 sources ++ faultsFrom sources (i + 1) xs

/-- Modelled from the spec: the aggregated diagnostic fault report that
PandasLFApplier.apply surfaces after the full pass; the library
implementation is not in this repository. -/
def applyFaults (sources : List Source) (items : List Item) : List Fault :=
  faultsFrom sources 0 items

theorem mem_rowFaultsFrom {x : Item} {e : String} {s : Source} :
    ∀ (sources : List Source) (j0 j : Nat) (i : Nat),
      sources[j]? = some s → s x = .error e →
      (⟨i, j0 + j, e⟩ : Fault) ∈ rowFaultsFrom i x j0 sources := by
  intro sources
  induction sources with
  | nil => intro j0 j i hj; simp at hj
  | cons t rest ih =>
    intro j0 j i hj he
    cases j with
    | zero =>
      simp at hj
      subst hj
      simp [rowFaultsFrom, he]
    | succ j =>
      simp at hj
      have := ih (j0 + 1) j i hj he
      have harith : j0 + (j + 1) = j0 + 1 + j := by omega
      rw [harith]
      cases ht : t x with
      | ok v => simpa [rowFaultsFrom, ht] using this
      | error e2 => simp [rowFaultsFrom, ht, this]

theorem mem_faultsFrom {sources : List Source} {x : Item} {f : Fault} :
    ∀ (items : List Item) (i0 i : Nat),
      items[i]? = some x → f ∈ rowFaultsFrom (i0 + i) x 0 sources →
      f ∈ faultsFrom sources i0 items := by
  intro items
  induction items with
  | nil => intro i0 i hi; simp at hi
  | cons y ys ih =>
    intro i0 i hi hf
    cases i with
    | zero =>
      simp at hi
      subst hi
      simp [faultsFrom]
      exact Or.inl hf
    | succ i =>
      simp at hi
      have harith : i0 + (i + 1) = i0 + 1 + i := by omega
      rw [harith] at hf
      simp [faultsFrom]
      exact Or.inr (ih (i0 + 1) i hi hf)

/-- Claim C5: a source error on one (item, source) cell is recorded as
abstain in that cell plus a diagnostic fault entry, while the full matrix
is still produced — every row is complete and every cell whose source
succeeds holds that source's vote, so one failing source never aborts the
batch. -/
theorem apply_recovers_source_faults (sources : List Source)
    (items : List Item) (i j : Nat) (x : Item) (s : Source) (e : String)
    (hi : items[i]? = some x) (hj : sources[j]? = some s)
    (he : s x = .error e) :
    (applyMatrix sources items).length = items.length ∧
      (∀ row ∈ applyMatrix sources items, row.length = sources.length) ∧
      (∀ row, (applyMatrix sources items)[i]? = some row →
        row[j]? = some ABSTAIN) ∧
      (⟨i, j, e⟩ : Fault) ∈ applyFaults sources items ∧
      (∀ (i2 j2 : Nat) (x2 : Item) (s2 : Source) (v : Int),
        items[i2]? = some x2 → sources[j2]? = some s2 →
        s2 x2 = Except.ok v →
        ∀ row, (applyMatrix sources items)[i2]? = some row →
          row[j2]? = some v) := by
  refine ⟨by simp [applyMatrix], ?_, ?_, ?_, ?_⟩
  · intro row hrow
    obtain ⟨y, _, hy⟩ := List.mem_map.mp hrow
    simp [← hy]
  · intro row hrow
    rw [applyMatrix, List.getElem?_map, hi] at hrow
    simp at hrow
    rw [← hrow, List.getElem?_map, hj]
    simp [evalCell, he]
  · have hr := mem_rowFaultsFrom sources 0 j i hj he
    rw [Nat.zero_add] at hr
    exact mem_faultsFrom items 0 i hi (by rw [Nat.zero_add]; exact hr)
  · intro i2 j2 x2 s2 v hi2 hj2 hv row hrow
    rw [applyMatrix, List.getElem?_map, hi2] at hrow
    simp at hrow
    rw [← hrow, List.getElem?_map, hj2]
    simp [evalCell, hv]

/-- Witness for claim C5: a two-source, one-item batch where the first
source raises — the cell is abstain, the fault is reported, the second
source's vote is still placed. -/
theorem apply_recovers_source_faults_witness :
    (applyMatrix [fun _ => Except.error "boom", fun _ => Except.ok 1]
        [⟨0, "t"⟩]).length = 1 ∧
      (∀ row ∈ applyMatrix [fun _ => Except.error "boom", fun _ => Except.ok 1]
        [⟨0, "t"⟩], row.length = 2) ∧
      (∀ row, (applyMatrix [fun _ => Except.error "boom", fun _ => Except.ok 1]
        [⟨0, "t"⟩])[0]? = some row → row[0]? = some ABSTAIN) ∧
      (⟨0, 0, "boom"⟩ : Fault) ∈
        applyFaults [fun _ => Except.error "boom", fun _ => Except.ok 1]
          [⟨0, "t"⟩] ∧
      (∀ (i2 j2 : Nat) (x2 : Item) (s2 : Source) (v : Int),
        ([⟨0, "t"⟩] : List Item)[i2]? = some x2 →
        ([fun _ => Except.error "boom", fun _ => Except.ok 1] :
          List Source)[j2]? = some s2 →
        s2 x2 = Except.ok v →
        ∀ row, (applyMatrix [fun _ => Except.error "boom", fun _ => Except.ok 1]
          [⟨0, "t"⟩])[i2]? = some row → row[j2]? = some v) :=
  apply_recovers_source_faults
    [fun _ => Except.error "boom", fun _ => Except.ok 1] [⟨0, "t"⟩]
    0 0 ⟨0, "t"⟩ (fun _ => Except.error "boom") "boom" rfl rfl rfl

/-! ### Label model claim theorems -/

theorem predict_proba_row_all_abstain (k : Nat) (accs : List ℚ)
    (row : List Int) (hrow : ∀ v ∈ row, v = -1) :
    predict_proba_row k accs row = List.replicate k ((1 : ℚ) / (k : ℚ)) := by
  have hw : rowWeights k accs row = List.replicate k 1 := by
    rw [rowWeights, List.eq_replicate_iff]
    refine ⟨by simp, ?_⟩
    intro b hb
    obtain ⟨c, _, hc⟩ := List.mem_map.mp hb
    rw [← hc]
    apply List.prod_eq_one
    intro y hy
    obtain ⟨p, hp, hpy⟩ := List.mem_map.mp hy
    have hv : p.2 = -1 := hrow p.2 (List.of_mem_zip hp).2
    rw [← hpy, cellLikelihood, if_pos hv]
  have hs : (List.replicate k (1 : ℚ)).sum = (k : ℚ) := by
    simp [List.sum_replicate]
  rw [predict_proba_row, hw, hs, List.map_replicate, one_div]

/-- Claim C1: on a fitted label model, every vote-matrix row in which all
sources abstain receives exactly the uniform prior over the k classes from
predict_proba, and the call succeeds rather than erroring. -/
theorem predict_proba_all_abstain_uniform (m : LabelModel) (ps : FitParams)
    (hm : m.state = ModelState.fitted ps) (L : VoteMatrix) (i : Nat)
    (row : List Int) (hi : L[i]? = some row) (hrow : ∀ v ∈ row, v = -1) :
    ∃ P, predict_proba m L = Except.ok P ∧
      P[i]? = some (List.replicate m.cardinality ((1 : ℚ) / (m.cardinality : ℚ))) := by
  refine ⟨L.map (predict_proba_row m.cardinality ps.accs),
    by simp [predict_proba, hm], ?_⟩
  rw [List.getElem?_map, hi]
  exact congrArg some (predict_proba_row_all_abstain _ _ _ hrow)

/-- Witness for claim C1: a fitted two-class model on a one-row, one-source
matrix whose only entry abstains yields the posterior row with both entries
equal to one half. -/
theorem predict_proba_all_abstain_uniform_witness :
    ∃ P, predict_proba ⟨2, ModelState.fitted ⟨[1 / 2]⟩⟩ [[-1]] = Except.ok P ∧
      P[0]? = some (List.replicate 2 ((1 : ℚ) / (2 : ℚ))) :=
  predict_proba_all_abstain_uniform ⟨2, ModelState.fitted ⟨[1 / 2]⟩⟩ ⟨[1 / 2]⟩
    rfl [[-1]] 0 [-1] rfl (by decide)

theorem exists_le_max : ∀ (l : List ℚ), l ≠ [] → ∃ x ∈ l, ∀ y ∈ l, y ≤ x := by
  intro l
  induction l with
  | nil => intro h; exact absurd rfl h
  | cons a t ih =>
    intro _
    cases t with
    | nil => exact ⟨a, by simp⟩
    | cons b u =>
      obtain ⟨x, hx, hall⟩ := ih (by simp)
      by_cases hax : a ≤ x
      · refine ⟨x, List.mem_cons_of_mem a hx, ?_⟩
        intro y hy
        rcases List.mem_cons.mp hy with hy | hy
        · exact hy ▸ hax
        · exact hall y hy
      · refine ⟨a, List.mem_cons_self a _, ?_⟩
        intro y hy
        rcases List.mem_cons.mp hy with hy | hy
        · exact hy ▸ le_refl a
        · exact le_trans (hall y hy) (le_of_not_le hax)

theorem argmaxIdx_lowest_max (probs : List ℚ) (hne : probs ≠ []) :
    argmaxIdx probs < probs.length ∧
      (∀ j2, j2 < probs.length →
        probs.getD j2 0 ≤ probs.getD (argmaxIdx probs) 0) ∧
      (∀ j2, j2 < argmaxIdx probs →
        probs.getD j2 0 < probs.getD (argmaxIdx probs) 0) := by
  obtain ⟨x, hx, hall⟩ := exists_le_max probs hne
  have hex : ∃ z ∈ probs, (probs.all (fun y => decide (y ≤ z))) = true :=
    ⟨x, hx, by simpa using hall⟩
  have hlt : argmaxIdx probs < probs.length :=
    List.findIdx_lt_length_of_exists hex
  have hmax : ∀ y ∈ probs, y ≤ probs.getD (argmaxIdx probs) 0 := by
    have := @List.findIdx_getElem _ (fun z => probs.all (fun y => decide (y ≤ z)))
      probs hlt
    simp only [List.all_eq_true, decide_eq_true_eq] at this
    intro y hy
    have h2 := this y hy
    rwa [List.getD_eq_getElem?_getD, List.getElem?_eq_getElem hlt]
  refine ⟨hlt, ?_, ?_⟩
  · intro j2 hj2
    have : probs.getD j2 0 ∈ probs := by
      rw [List.getD_eq_getElem?_getD, List.getElem?_eq_getElem hj2]
      exact List.getElem_mem hj2
    exact hmax _ this
  · intro j2 hj2
    have hj2len : j2 < probs.length := lt_trans hj2 hlt
    have hfalse := List.not_of_lt_findIdx (p := fun z => probs.all
      (fun y => decide (y ≤ z))) hj2
    rw [List.all_eq_false] at hfalse
    obtain ⟨y, hy, hylt⟩ := hfalse
    simp only [decide_eq_true_eq] at hylt
    have h1 : probs.getD j2 0 < y := by
      rw [List.getD_eq_getElem?_getD, List.getElem?_eq_getElem hj2len]
      exact lt_of_not_le hylt
    exact lt_of_lt_of_le h1 (hmax y hy)

/-- Claim C2: predict on a fitted model is exactly the row-wise argmax of
predict_proba, and the argmax index is the lowest index attaining the
maximal probability — ties are resolved deterministically toward the lowest
class index, never randomly. -/
theorem predict_is_argmax_lowest (m : LabelModel) (ps : FitParams)
    (hm : m.state = ModelState.fitted ps) (L : VoteMatrix) :
    predict m L = Except.map (List.map argmaxIdx) (predict_proba m L) ∧
      ∀ probs : List ℚ, probs ≠ [] →
        argmaxIdx probs < probs.length ∧
          (∀ j2, j2 < probs.length →
            probs.getD j2 0 ≤ probs.getD (argmaxIdx probs) 0) ∧
          (∀ j2, j2 < argmaxIdx probs →
            probs.getD j2 0 < probs.getD (argmaxIdx probs) 0) := by
  constructor
  · simp [predict, predict_proba, hm, Except.map, List.map_map, Function.comp]
  · exact fun probs hne => argmaxIdx_lowest_max probs hne

/-- Witness for claim C2 at a concrete fitted model, matrix, and an exactly
tied posterior row, whose argmax resolves to index 0. -/
theorem predict_is_argmax_lowest_witness :
    (predict ⟨2, ModelState.fitted ⟨[1 / 2]⟩⟩ [[0], [-1]] =
      Except.map (List.map argmaxIdx)
        (predict_proba ⟨2, ModelState.fitted ⟨[1 / 2]⟩⟩ [[0], [-1]])) ∧
      (argmaxIdx [(1 : ℚ) / 2, 1 / 2] < 2 ∧
        (∀ j2, j2 < 2 →
          ([(1 : ℚ) / 2, 1 / 2].getD j2 0 ≤
            [(1 : ℚ) / 2, 1 / 2].getD (argmaxIdx [(1 : ℚ) / 2, 1 / 2]) 0)) ∧
        (∀ j2, j2 < argmaxIdx [(1 : ℚ) / 2, 1 / 2] →
          ([(1 : ℚ) / 2, 1 / 2].getD j2 0 <
            [(1 : ℚ) / 2, 1 / 2].getD (argmaxIdx [(1 : ℚ) / 2, 1 / 2]) 0))) :=
  ⟨(predict_is_argmax_lowest ⟨2, ModelState.fitted ⟨[1 / 2]⟩⟩ ⟨[1 / 2]⟩ rfl
      [[0], [-1]]).1,
   (predict_is_argmax_lowest ⟨2, ModelState.fitted ⟨[1 / 2]⟩⟩ ⟨[1 / 2]⟩ rfl
      [[0], [-1]]).2 [(1 : ℚ) / 2, 1 / 2] (by simp)⟩

/-- Claim C3: fit is deterministic — two fit calls with the identical vote
matrix, seed, and hyperparameters yield identical fitted models, and those
models give identical predict and predict_proba outputs on every matrix. -/
theorem fit_deterministic (m : LabelModel) (L : VoteMatrix)
    (nEpochs seed : Nat) (l2 lr : ℚ) (logFreq : Nat) (m1 m2 : LabelModel)
    (h1 : fit m L nEpochs seed l2 lr logFreq = Except.ok m1)
    (h2 : fit m L nEpochs seed l2 lr logFreq = Except.ok m2) :
    m1 = m2 ∧ ∀ L2, predict m1 L2 = predict m2 L2 ∧
      predict_proba m1 L2 = predict_proba m2 L2 := by
  have h12 : m1 = m2 := by
    have := h1.symm.trans h2
    exact Except.ok.inj this
  exact ⟨h12, fun L2 => by rw [h12]; exact ⟨rfl, rfl⟩⟩

/-- Witness for claim C3: a concrete successful fit, run twice, with equal
results and equal predictions. -/
theorem fit_deterministic_witness :
    (⟨2, ModelState.fitted ⟨[999 / 1000, 999 / 1000]⟩⟩ : LabelModel) =
        ⟨2, ModelState.fitted ⟨[999 / 1000, 999 / 1000]⟩⟩ ∧
      ∀ L2, predict ⟨2, ModelState.fitted ⟨[999 / 1000, 999 / 1000]⟩⟩ L2 =
          predict ⟨2, ModelState.fitted ⟨[999 / 1000, 999 / 1000]⟩⟩ L2 ∧
        predict_proba ⟨2, ModelState.fitted ⟨[999 / 1000, 999 / 1000]⟩⟩ L2 =
          predict_proba ⟨2, ModelState.fitted ⟨[999 / 1000, 999 / 1000]⟩⟩ L2 :=
  fit_deterministic ⟨2, ModelState.uninitialized⟩ [[0, 0], [1, -1]] 1 0 0 1 1
    ⟨2, ModelState.fitted ⟨[999 / 1000, 999 / 1000]⟩⟩
    ⟨2, ModelState.fitted ⟨[999 / 1000, 999 / 1000]⟩⟩
    (by norm_num [fit, fitAccs, numSources, hasSignal, targetAcc, agreeStats,
      initAcc, clampProb, iterAcc, stepAcc, List.range_succ])
    (by norm_num [fit, fitAccs, numSources, hasSignal, targetAcc, agreeStats,
      initAcc, clampProb, iterAcc, stepAcc, List.range_succ])

/-- Claim C4: label_coverage is the fraction of rows with at least one
non-abstaining entry; on a nonempty well-formed matrix it equals 1 exactly
when every row has a non-abstaining entry and 0 exactly when every entry
abstains. -/
theorem label_coverage_fraction (L : VoteMatrix) (hne : L ≠ [])
    (hwf : ∀ row ∈ L, ∀ v ∈ row, -1 ≤ v) :
    label_coverage L = ((L.filter rowCovered).length : ℚ) / (L.length : ℚ) ∧
      (label_coverage L = 1 ↔ ∀ row ∈ L, ∃ v ∈ row, 0 ≤ v) ∧
      (label_coverage L = 0 ↔ ∀ row ∈ L, ∀ v ∈ row, v = -1) := by
  have hlen : ((L.length : ℚ)) ≠ 0 :=
    Nat.cast_ne_zero.mpr (fun h => hne (List.length_eq_zero.mp h))
  refine ⟨by rw [label_coverage, List.countP_eq_length_filter], ?_, ?_⟩
  · rw [label_coverage, div_eq_one_iff_eq hlen, Nat.cast_inj,
      List.countP_eq_length]
    constructor
    · intro h row hrow
      have := h row hrow
      simpa [rowCovered] using this
    · intro h row hrow
      simpa [rowCovered] using h row hrow
  · rw [label_coverage, div_eq_zero_iff]
    constructor
    · intro h row hrow v hv
      rcases h with h | h
      · rw [Nat.cast_eq_zero, List.countP_eq_zero] at h
        have := h row hrow
        simp only [rowCovered, List.any_eq_true, decide_eq_true_eq,
          not_exists, not_and] at this
        have h1 := this v hv
        have h2 := hwf row hrow v hv
        omega
      · exact absurd h hlen
    · intro h
      left
      rw [Nat.cast_eq_zero, List.countP_eq_zero]
      intro row hrow
      simp only [rowCovered, List.any_eq_true, decide_eq_true_eq, not_exists,
        not_and]
      intro v hv
      have := h row hrow v hv
      omega

/-- Witness for claim C4 at a concrete two-row matrix with one covered and
one all-abstain row. -/
theorem label_coverage_fraction_witness :
    label_coverage [[0], [-1]] =
        ((([[0], [-1]] : VoteMatrix).filter rowCovered).length : ℚ) /
          ((([[0], [-1]] : VoteMatrix)).length : ℚ) ∧
      (label_coverage [[0], [-1]] = 1 ↔
        ∀ row ∈ ([[0], [-1]] : VoteMatrix), ∃ v ∈ row, 0 ≤ v) ∧
      (label_coverage [[0], [-1]] = 0 ↔
        ∀ row ∈ ([[0], [-1]] : VoteMatrix), ∀ v ∈ row, v = -1) :=
  label_coverage_fraction [[0], [-1]] (by decide) (by decide)

/-- Claim C6: predict and predict_proba fail with NotFittedError on a model
that is not in the fitted state, and succeed exactly in the fitted state. -/
theorem predict_requires_fitted (m : LabelModel) (L : VoteMatrix) :
    (m.state = ModelState.uninitialized →
      predict_proba m L = Except.error LMError.notFittedError ∧
        predict m L = Except.error LMError.notFittedError) ∧
      (∀ ps, m.state = ModelState.fitted ps →
        (∃ P, predict_proba m L = Except.ok P) ∧
          ∃ ys, predict m L = Except.ok ys) := by
  constructor
  · intro h
    exact ⟨by simp [predict_proba, h], by simp [predict, h]⟩
  · intro ps h
    exact ⟨⟨L.map (predict_proba_row m.cardinality ps.accs),
        by simp [predict_proba, h]⟩,
      ⟨L.map (fun row => argmaxIdx (predict_proba_row m.cardinality ps.accs row)),
        by simp [predict, h]⟩⟩

/-- Witness for claim C6: an uninitialized model errors on both calls and a
fitted model succeeds on both, at a concrete matrix. -/
theorem predict_requires_fitted_witness :
    (predict_proba ⟨2, ModelState.uninitialized⟩ [[0]] =
        Except.error LMError.notFittedError ∧
      predict ⟨2, ModelState.uninitialized⟩ [[0]] =
        Except.error LMError.notFittedError) ∧
      ((∃ P, predict_proba ⟨2, ModelState.fitted ⟨[1 / 2]⟩⟩ [[0]] =
          Except.ok P) ∧
        ∃ ys, predict ⟨2, ModelState.fitted ⟨[1 / 2]⟩⟩ [[0]] = Except.ok ys) :=
  ⟨(predict_requires_fitted ⟨2, ModelState.uninitialized⟩ [[0]]).1 rfl,
   (predict_requires_fitted ⟨2, ModelState.fitted ⟨[1 / 2]⟩⟩ [[0]]).2
     ⟨[1 / 2]⟩ rfl⟩

/-- Claim C7: fitting a model whose cardinality is below 2 fails with
InvalidConfigurationError no matter what matrix or hyperparameters are
supplied — the configuration is rejected before any estimation. -/
theorem fit_rejects_small_cardinality (m : LabelModel) (L : VoteMatrix)
    (nEpochs seed : Nat) (l2 lr : ℚ) (logFreq : Nat)
    (h : m.cardinality < 2) :
    fit m L nEpochs seed l2 lr logFreq =
      Except.error LMError.invalidConfigurationError := by
  simp [fit, h]

/-- Witness for claim C7: cardinality 1 is rejected at a concrete call. -/
theorem fit_rejects_small_cardinality_witness :
    fit ⟨1, ModelState.uninitialized⟩ [[0]] 100 123 (1 / 10) (1 / 100) 20 =
      Except.error LMError.invalidConfigurationError :=
  fit_rejects_small_cardinality ⟨1, ModelState.uninitialized⟩ [[0]]
    100 123 (1 / 10) (1 / 100) 20 (by decide)

end CrowdTutorial
